import Mathlib

set_option maxHeartbeats 1000000
set_option maxRecDepth 4000

/- Verification development for the diff-summarization core of ai-commit
   (internal/git: GetStagedDiffFiles, PrepareSmartDiff).  The Go source is
   embedded shallowly: the two strings a git subprocess would return (the raw
   staged diff and the name-status listing) are taken as inputs, and the pure
   string-processing body of each Go function is translated directly.  A Go
   panic is modelled as the value none of an Option result. -/

/-- Whitespace predicate of Go unicode.IsSpace as used by strings.TrimSpace.
Unicode category-Z code points other than U+0085 and U+00A0 are omitted from
the model; all inputs considered here are ASCII. -/
def goIsSpace (c : Char) : Bool :=
  c = ' ' || c = '\t' || c = '\n' || c = '\r' || c.toNat = 0x0B || c.toNat = 0x0C ||
    c.toNat = 0x85 || c.toNat = 0xA0

/-- Go strings.TrimSpace: drop leading and trailing whitespace. -/
def goTrimSpace (s : String) : String :=
  String.mk (((s.data.dropWhile goIsSpace).reverse.dropWhile goIsSpace).reverse)

/-- UTF-8 byte size of one character, as Go len() counts string bytes. -/
def charUtf8Size (c : Char) : Nat :=
  if c.toNat < 0x80 then 1 else if c.toNat < 0x800 then 2
  else if c.toNat < 0x10000 then 3 else 4

/-- Go len(s) on a string: its number of UTF-8 bytes. -/
def goLen (s : String) : Nat := s.data.foldl (fun n c => n + charUtf8Size c) 0

/-- Split a character list at its first tab.  Models Go
strings.SplitN(line, tab, 2): none when the line holds no tab (SplitN then
yields a single field and the caller's length-2 test fails). -/
def splitFirstTabChars : List Char → Option (List Char × List Char)
  | [] => none
  | c :: rest =>
    if c = '\t' then some ([], rest)
    else (splitFirstTabChars rest).map (fun p => (c :: p.1, p.2))

/-- String version of splitFirstTabChars. -/
def splitFirstTab (s : String) : Option (String × String) :=
  (splitFirstTabChars s.data).map (fun p => (String.mk p.1, String.mk p.2))

/-- Does the second list start with the first one? -/
def leadsWith : List Char → List Char → Bool
  | [], _ => true
  | _ :: _, [] => false
  | p :: ps, c :: rest => p == c && leadsWith ps rest

/-- Does the pattern occur anywhere in the list? -/
def hasSub (pat : List Char) : List Char → Bool
  | [] => leadsWith pat []
  | c :: rest => leadsWith pat (c :: rest) || hasSub pat rest

/-- Substring test on strings (used only to state properties of outputs). -/
def strContains (s pat : String) : Bool := hasSub pat.data s.data

/-- Go strings.Split with a one-character separator (the only separators the
source uses are a newline and a slash): split at every occurrence, keeping
empty fields; a string without the separator yields a single field, and the
empty string yields one empty field, matching strings.Split. -/
def splitCharAux (sep : Char) : List Char → List Char → List String
  | [], acc => [String.mk acc.reverse]
  | c :: rest, acc =>
    if c = sep then String.mk acc.reverse :: splitCharAux sep rest []
    else splitCharAux sep rest (c :: acc)

/-- Split a string at every occurrence of one character. -/
def splitChar (sep : Char) (s : String) : List String := splitCharAux sep s.data []

/-- Go strings.HasPrefix. -/
def strStarts (s pre : String) : Bool := leadsWith pre.data s.data

/-- Go strings.HasSuffix. -/
def strEnds (s suf : String) : Bool := leadsWith suf.data.reverse s.data.reverse

/-- Go strings.Join with a separator. -/
def joinWith (sep : String) : List String → String
  | [] => ""
  | [x] => x
  | x :: rest => x ++ sep ++ joinWith sep rest

/-- Go struct FileChange (internal/git). -/
structure FileChange where
  Path : String
  ChangeType : String
  IsBinary : Bool
  Diff : String
deriving DecidableEq, Repr

/-- Rightmost split of a diff-header remainder at a " b/" separator with a
nonempty part on each side.  This is exactly what the greedy Go regexp
`^diff --git a/(.+) b/(.+)$` produces for the two capture groups when matched
against the part of a header line after "diff --git a/": group 1 is maximal,
so the separator is the last " b/" that still leaves group 2 nonempty. -/
def splitB : List Char → Option (List Char × List Char)
  | [] => none
  | c :: rest =>
    match splitB rest with
    | some (g1, g2) => some (c :: g1, g2)
    | none =>
      match rest with
      | ' ' :: 'b' :: '/' :: g2 => if g2.isEmpty then none else some ([c], g2)
      | _ => none

/-- The b-side path captured by the Go diff-header regexp
`(?m)^diff --git a/(.+) b/(.+)$` on one (newline-free) line, if the line
matches. -/
def headerBPath (line : String) : Option String :=
  if strStarts line "diff --git a/" then
    match splitB (line.data.drop 13) with
    | some (_, g2) => some (String.mk g2)
    | none => none
  else none

/-- All diff-header lines of the raw diff with their line index and b-path,
in order: the result of FindAllStringSubmatchIndex of the header regexp. -/
def diffHeaders (dLines : List String) : List (Nat × String) :=
  dLines.enum.filterMap (fun p => (headerBPath p.2).map (fun b => (p.1, b)))

/-- Path comparison of GetStagedDiffFiles: the header's b-path equals the
status path or ends with "/" followed by it. -/
def pathMatches (bPath filePath : String) : Bool :=
  bPath == filePath || strEnds bPath ("/" ++ filePath)

/-- First header whose b-path matches, with the line index of the following
header (if any): the loop with break over the regexp matches. -/
def findHeaderIdx : List (Nat × String) → String → Option (Nat × Option Nat)
  | [], _ => none
  | (i, b) :: rest, fp =>
    if pathMatches b fp then some (i, (rest.head?).map (fun q => q.1))
    else findHeaderIdx rest fp

/-- Binary-file detection: the Go regexp `(?m)^Binary files` matches the
segment, i.e. some line of the segment starts with "Binary files". -/
def isBinarySeg (seg : String) : Bool :=
  (splitChar '\n' seg).any (fun l => strStarts l "Binary files")

/-- Locate one file's diff segment inside the raw diff, as GetStagedDiffFiles
does: the text from the first matching header up to (excluding) the next
header, or up to end of input.  Returns the segment (empty when no header
matches) and the binary flag. -/
def findSegment (diffOutput filePath : String) : String × Bool :=
  let dLines := splitChar '\n' diffOutput
  match findHeaderIdx (diffHeaders dLines) filePath with
  | none => ("", false)
  | some (i, some j) =>
    let seg := joinWith "\n" ((dLines.drop i).take (j - i)) ++ "\n"
    (seg, isBinarySeg seg)
  | some (i, none) =>
    let seg := joinWith "\n" (dLines.drop i)
    (seg, isBinarySeg seg)

/-- Build the FileChange for one status line whose code field is nonempty:
rename handling (keep the new path), the status-letter switch with default
"Modified", and segment lookup. -/
def mkRecord (diffOutput code pathPart : String) : FileChange :=
  let filePath :=
    if strStarts code "R" then
      match splitFirstTab pathPart with
      | some (_, newPath) => newPath
      | none => pathPart
    else pathPart
  let kindStr :=
    if strStarts code "A" then "Added"
    else if strStarts code "M" then "Modified"
    else if strStarts code "D" then "Deleted"
    else if strStarts code "R" then "Renamed"
    else "Modified"
  let seg := findSegment diffOutput filePath
  { Path := filePath, ChangeType := kindStr, IsBinary := seg.2, Diff := seg.1 }

/-- The status-line loop of GetStagedDiffFiles.  Empty lines are skipped;
lines without a tab are skipped (SplitN gives one field, not two).  When the
field before the first tab is empty (the line begins with a tab), the Go code
evaluates changeType[0] on an empty string and panics with an index-range
error: that is modelled as none. -/
def parseStatusLines (diffOutput : String) : List String → Option (List FileChange)
  | [] => some []
  | line :: rest =>
    if line = "" then parseStatusLines diffOutput rest
    else
      match splitFirstTab line with
      | none => parseStatusLines diffOutput rest
      | some (code, pathPart) =>
        if code = "" then none
        else
          match parseStatusLines diffOutput rest with
          | none => none
          | some others => some (mkRecord diffOutput code pathPart :: others)

/-- Go GetStagedDiffFiles, with the two strings returned by the git
subprocesses as inputs.  none models a panic. -/
def GetStagedDiffFiles (diffOutput fileListOutput : String) : Option (List FileChange) :=
  if diffOutput = "" then some []
  else parseStatusLines diffOutput (splitChar '\n' (goTrimSpace fileListOutput))

/-- Keywords of the Go funcPattern regexp `(?m)^[+-](func|def|class|void|export|function)`. -/
def funcKeywords : List String := ["func", "def", "class", "void", "export", "function"]

/-- Keywords of the Go importPattern regexp `(?m)^[+-](import|from|require|use|using)`. -/
def importKeywords : List String := ["import", "from", "require", "use", "using"]

/-- MatchString of `^[+-](kw1|kw2|...)` on one newline-free diff line: the
line starts with '+' or '-' followed directly by one of the keywords. -/
def matchesKw (kws : List String) (line : String) : Bool :=
  kws.any (fun kw => strStarts line ("+" ++ kw) || strStarts line ("-" ++ kw))

/-- A line on which funcPattern or importPattern matches in PrepareSmartDiff. -/
def isImportantLine (line : String) : Bool :=
  matchesKw funcKeywords line || matchesKw importKeywords line

/-- The chunk-collection loop of PrepareSmartDiff over the indexed diff lines,
returning the half-open index spans [s, i) of the emitted chunks.  Mirrors the
Go loop: an important line opens a group at its index when none is open (and
is otherwise ignored); a non-important line at index i closes an open group
started at s when i > s+4, emitting the span when s < i-1 (written s+1 < i);
any group still open when the list ends is dropped (there is no flush after
the loop). -/
def chunkSpansGo : List String → Nat → Option Nat → List (Nat × Nat)
  | [], _, _ => []
  | line :: rest, i, none =>
    if isImportantLine line then chunkSpansGo rest (i + 1) (some i)
    else chunkSpansGo rest (i + 1) none
  | line :: rest, i, some s =>
    if isImportantLine line then chunkSpansGo rest (i + 1) (some s)
    else if s + 4 < i then
      (if s + 1 < i then [(s, i)] else []) ++ chunkSpansGo rest (i + 1) none
    else chunkSpansGo rest (i + 1) (some s)

/-- Chunk spans of a diff's line list (loop started at index 0, no open group). -/
def chunkSpans (lines : List String) : List (Nat × Nat) := chunkSpansGo lines 0 none

/-- The importantChunks variable of PrepareSmartDiff: each emitted span
rendered as strings.Join(diffLines[s:i], newline). -/
def importantChunks (lines : List String) : List String :=
  (chunkSpans lines).map (fun p => joinWith "\n" ((lines.drop p.1).take (p.2 - p.1)))

/-- The "Important changes" block: present only when at least one chunk was
collected; at most maxChunks = 3 chunks, each followed by the separator. -/
def chunksBlock (diffLines : List String) : String :=
  if (importantChunks diffLines).length > 0 then
    "\nImportant changes:\n" ++
      String.join (((importantChunks diffLines).take 3).map (fun c => c ++ "\n---\n"))
  else ""

/-- Per-file section header written for every non-binary file. -/
def sectionHeaderOf (fc : FileChange) : String :=
  "\n### " ++ fc.ChangeType ++ ": " ++ fc.Path ++ "\n"

/-- Body of the truncation path: first 5 lines verbatim, the truncation
marker, then the important-chunk block. -/
def truncatedBody (diffLines : List String) : String :=
  joinWith "\n" (diffLines.take 5) ++ "\n... (diff truncated) ...\n" ++
    chunksBlock diffLines

/-- The digest fragment PrepareSmartDiff appends for one FileChange inside its
per-file loop (log calls are side effects with no influence on the output and
are not modelled). -/
def fileSection (fc : FileChange) (tokensPerFile : Nat) : String :=
  if fc.IsBinary then "\n### " ++ fc.ChangeType ++ ": " ++ fc.Path ++ " (binary file)\n"
  else
    sectionHeaderOf fc ++
      (if fc.ChangeType == "Deleted" then "File was deleted.\n"
       else if fc.Diff == "" then "(No diff content available)\n"
       else if goLen fc.Diff > tokensPerFile * 4 then
         (if (splitChar '\n' fc.Diff).length > 5 then truncatedBody (splitChar '\n' fc.Diff)
          else fc.Diff)
       else fc.Diff)

/-- Count of records with a given ChangeType (the counting switch of
PrepareSmartDiff). -/
def countChangeType (fcs : List FileChange) (k : String) : Nat :=
  (fcs.filter (fun fc => fc.ChangeType == k)).length

/-- Count of binary records. -/
def countBinary (fcs : List FileChange) : Nat :=
  (fcs.filter (fun fc => fc.IsBinary)).length

/-- The statistics lines of the digest header. -/
def statsBlock (fcs : List FileChange) : String :=
  "- Added: " ++ toString (countChangeType fcs "Added") ++ "\n" ++
  "- Modified: " ++ toString (countChangeType fcs "Modified") ++ "\n" ++
  "- Deleted: " ++ toString (countChangeType fcs "Deleted") ++ "\n" ++
  (if countChangeType fcs "Renamed" > 0 then
    "- Renamed: " ++ toString (countChangeType fcs "Renamed") ++ "\n" else "") ++
  (if countBinary fcs > 0 then
    "- Binary files: " ++ toString (countBinary fcs) ++ "\n" else "")

/-- Directory key of one path: the first segment of a multi-segment path,
the sentinel "root" otherwise. -/
def dirOf (path : String) : String :=
  let pathParts := splitChar '/' path
  if pathParts.length > 1 then pathParts.headD "" else "root"

/-- The distinct directory keys of the change set, in first-seen order (the
key set of the Go dirGroups map). -/
def dirKeys (fcs : List FileChange) : List String :=
  fcs.foldl (fun acc fc =>
    let d := dirOf fc.Path
    if acc.contains d then acc else acc ++ [d]) []

/-- Number of paths grouped under one directory key. -/
def dirCount (fcs : List FileChange) (d : String) : Nat :=
  (fcs.filter (fun fc => dirOf fc.Path == d)).length

/-- The "Changes by directory" block.  The Go code iterates the dirGroups map
with range, whose order the Go language leaves unspecified and the runtime
randomizes per run; the model therefore takes the iteration order as an
explicit dirOrder parameter, constrained in theorems to be a permutation of
the key set. -/
def changesByDirectory (fcs : List FileChange) (dirOrder : List String) : String :=
  if (dirKeys fcs).length > 1 then
    "\nChanges by directory:\n" ++
      String.join (dirOrder.map (fun d =>
        "- " ++ d ++ ": " ++ toString (dirCount fcs d) ++ " files\n"))
  else ""

/-- Per-file budget divisor chain of PrepareSmartDiff.  Go computes
int(float64(maxTokens) * 0.8); since the double nearest to 0.8 exceeds 4/5 by
exactly 4/5 * 2^-54, the product t * 0.8 rounds back to the exact value when
4t/5 is an integer and never crosses an integer otherwise for 0 <= t < 2^50,
so the truncation equals floor(4t/5) on that whole range. -/
def fileDiffBudget (maxTokens : Nat) : Nat := 4 * maxTokens / 5

/-- tokensPerFile = fileDiffBudget / len(fileChanges). -/
def tokensPerFile (maxTokens fileCount : Nat) : Nat := fileDiffBudget maxTokens / fileCount

/-- The pure body of Go PrepareSmartDiff after GetStagedDiffFiles has
returned: header, statistics, directory grouping, flat file list, and the
per-file sections.  dirOrder is the iteration order of the dirGroups map
(see changesByDirectory). -/
def PrepareSmartDiff (dirOrder : List String) (fileChanges : List FileChange)
    (maxTokens : Nat) : String :=
  if fileChanges.isEmpty then ""
  else
    "Commit includes " ++ toString fileChanges.length ++ " files:\n" ++
    statsBlock fileChanges ++
    changesByDirectory fileChanges dirOrder ++
    "\nChanged files:\n" ++
    String.join (fileChanges.map (fun fc => "- " ++ fc.ChangeType ++ ": " ++ fc.Path ++ "\n")) ++
    "\nSelected diff content:\n" ++
    String.join (fileChanges.map (fun fc =>
      fileSection fc (tokensPerFile maxTokens fileChanges.length)))


/-- Unfolding equation of the chunk loop on the empty list: an open group is
dropped, nothing more is emitted. -/
theorem chunkSpansGo_nil (i : Nat) (cs : Option Nat) : chunkSpansGo [] i cs = [] := rfl

/-- Unfolding equation of the chunk loop with no open group. -/
theorem chunkSpansGo_cons_none (line : String) (rest : List String) (i : Nat) :
    chunkSpansGo (line :: rest) i none =
      (if isImportantLine line then chunkSpansGo rest (i + 1) (some i)
       else chunkSpansGo rest (i + 1) none) := rfl

/-- Unfolding equation of the chunk loop with an open group started at s. -/
theorem chunkSpansGo_cons_some (line : String) (rest : List String) (i s : Nat) :
    chunkSpansGo (line :: rest) i (some s) =
      (if isImportantLine line then chunkSpansGo rest (i + 1) (some s)
       else if s + 4 < i then
         (if s + 1 < i then [(s, i)] else []) ++ chunkSpansGo rest (i + 1) none
       else chunkSpansGo rest (i + 1) (some s)) := rfl

/-- Unfolding step for membership in the chunk loop: a span produced on the
list line :: rest is either emitted at this step (a close event at index i)
or produced by the tail call, whose open-group argument is tracked. -/
theorem chunkSpansGo_cons_sub (line : String) (rest : List String) (i : Nat) (cs : Option Nat)
    (p : Nat × Nat) (hp : p ∈ chunkSpansGo (line :: rest) i cs) :
    (∃ s, cs = some s ∧ p = (s, i) ∧ isImportantLine line = false ∧ s + 4 < i) ∨
    (∃ cs', p ∈ chunkSpansGo rest (i + 1) cs' ∧
      (∀ s, cs' = some s → cs = some s ∨ (s = i ∧ isImportantLine line = true))) := by
  cases cs with
  | none =>
    rw [chunkSpansGo_cons_none] at hp
    cases himp : isImportantLine line with
    | true =>
      rw [if_pos himp] at hp
      right
      refine ⟨some i, hp, ?_⟩
      intro s hs
      injection hs with h
      right
      exact ⟨h.symm, by simp [himp]⟩
    | false =>
      rw [if_neg (by simp [himp])] at hp
      right
      refine ⟨none, hp, ?_⟩
      intro s hs
      cases hs
  | some s =>
    rw [chunkSpansGo_cons_some] at hp
    cases himp : isImportantLine line with
    | true =>
      rw [if_pos himp] at hp
      right
      exact ⟨some s, hp, fun s0 h => Or.inl h⟩
    | false =>
      rw [if_neg (by simp [himp])] at hp
      by_cases hgt : s + 4 < i
      · rw [if_pos hgt] at hp
        rcases List.mem_append.mp hp with hl | hr
        · left
          refine ⟨s, rfl, ?_, by simp [himp], hgt⟩
          by_cases hsub : s + 1 < i
          · rw [if_pos hsub] at hl
            simpa using hl
          · rw [if_neg hsub] at hl
            simp at hl
        · right
          exact ⟨none, hr, fun s0 h => by cases h⟩
      · rw [if_neg hgt] at hp
        right
        exact ⟨some s, hp, fun s0 h => Or.inl h⟩

/-- Every span the chunk loop emits ends at a non-important line that exists
in the remaining list: the loop only emits on a close event, never at end of
input. -/
theorem spansGo_end (rest : List String) : ∀ (i : Nat) (cs : Option Nat) (p : Nat × Nat),
    p ∈ chunkSpansGo rest i cs →
    ∃ k l, rest.get? k = some l ∧ p.2 = i + k ∧ isImportantLine l = false := by
  induction rest with
  | nil =>
    intro i cs p hp
    rw [chunkSpansGo_nil] at hp
    exact absurd hp (List.not_mem_nil p)
  | cons line rest ih =>
    intro i cs p hp
    rcases chunkSpansGo_cons_sub line rest i cs p hp with ⟨s, _, hps, himp, _⟩ | ⟨cs', hp', _⟩
    · exact ⟨0, line, rfl, by simp [hps], himp⟩
    · obtain ⟨k, l, h1, h2, h3⟩ := ih (i + 1) cs' p hp'
      exact ⟨k + 1, l, by simpa using h1, by omega, h3⟩

/-- Every span the chunk loop emits satisfies the close condition i > s + 4:
its end index exceeds its start index by more than 4. -/
theorem spansGo_gap (rest : List String) : ∀ (i : Nat) (cs : Option Nat) (p : Nat × Nat),
    p ∈ chunkSpansGo rest i cs → p.1 + 4 < p.2 := by
  induction rest with
  | nil =>
    intro i cs p hp
    rw [chunkSpansGo_nil] at hp
    exact absurd hp (List.not_mem_nil p)
  | cons line rest ih =>
    intro i cs p hp
    rcases chunkSpansGo_cons_sub line rest i cs p hp with ⟨s, _, hps, _, hgt⟩ | ⟨cs', hp', _⟩
    · rw [hps]
      exact hgt
    · exact ih (i + 1) cs' p hp'

/-- Start indices of emitted spans satisfy any predicate that holds for the
open group handed in and for every important line of the remaining list. -/
theorem spansGo_start (Q : Nat → Prop) (rest : List String) : ∀ (i : Nat) (cs : Option Nat),
    (∀ s, cs = some s → Q s) →
    (∀ k l, rest.get? k = some l → isImportantLine l = true → Q (i + k)) →
    ∀ p : Nat × Nat, p ∈ chunkSpansGo rest i cs → Q p.1 := by
  induction rest with
  | nil =>
    intro i cs h1 h2 p hp
    rw [chunkSpansGo_nil] at hp
    exact absurd hp (List.not_mem_nil p)
  | cons line rest ih =>
    intro i cs h1 h2 p hp
    have hshift : ∀ k l, rest.get? k = some l → isImportantLine l = true → Q ((i + 1) + k) := by
      intro k l hk hl
      have he : (i + 1) + k = i + (k + 1) := by omega
      rw [he]
      exact h2 (k + 1) l (by simpa using hk) hl
    rcases chunkSpansGo_cons_sub line rest i cs p hp with ⟨s, hcs, hps, _, _⟩ | ⟨cs', hp', hcs'⟩
    · rw [hps]
      exact h1 s hcs
    · refine ih (i + 1) cs' ?_ hshift p hp'
      intro s hs
      rcases hcs' s hs with h | ⟨he, himp⟩
      · exact h1 s h
      · subst he
        simpa using h2 0 line rfl himp

/-- C3 counterexample: the truncation path retains a chunk containing exactly
one important line.  On a diff whose only important line "+func f" is
followed by five non-important lines, the loop emits the five-line chunk
"+func f x x x x", although the claim states that a chunk must span more
than one important line and that a single isolated important line is never
emitted: the Go guard chunkStart < i-1 counts lines, not important lines,
and is implied by the close condition i > chunkStart+4. -/
theorem single_important_line_chunk_retained :
    importantChunks ["+func f", "x", "x", "x", "x", "x"] = ["+func f\nx\nx\nx\nx"] ∧
    (["+func f", "x", "x", "x", "x", "x"].filter (fun l => isImportantLine l)).length = 1 ∧
    ((splitChar '\n' "+func f\nx\nx\nx\nx").filter (fun l => isImportantLine l)).length
      = 1 := by
  refine ⟨by decide, by decide, by decide⟩

/-- C3 (amended): in the truncation path a group opens at its first important
line s and is closed by the first non-important line at an index e with
e > s + 4, a gap measured from the group's start rather than from its last
important line; every retained chunk is the slice of diff lines with indices
in the span s up to e, hence spans e - s, at least 5, lines — always more
than one line, though possibly only one important line. -/
theorem chunk_span_at_least_five_lines :
    ∀ (lines : List String) (s e : Nat), (s, e) ∈ chunkSpans lines →
      s + 4 < e ∧ ((lines.drop s).take (e - s)).length = e - s := by
  intro lines s e h
  have hgap : s + 4 < e := spansGo_gap lines 0 none (s, e) h
  obtain ⟨k, l, h1, h2, _⟩ := spansGo_end lines 0 none (s, e) h
  obtain ⟨hk, _⟩ := List.get?_eq_some.mp h1
  have he : e = k := by simpa using h2
  refine ⟨hgap, ?_⟩
  rw [List.length_take, List.length_drop]
  omega

/-- C3 witness: the theorem applied to the concrete span (0, 5) emitted on
the six-line diff of the counterexample. -/
theorem chunk_span_at_least_five_lines_witness :
    0 + 4 < 5 ∧
      (((["+func f", "x", "x", "x", "x", "x"] : List String).drop 0).take (5 - 0)).length
        = 5 - 0 :=
  chunk_span_at_least_five_lines ["+func f", "x", "x", "x", "x", "x"] 0 5 (by decide)

/-- C4 counterexample: the chunk scan is not restricted to the lines after
the first 5 verbatim lines: it walks all diff lines from index 0, and here
the emitted chunk starts at index 0, one of the first 5 already-emitted
lines, which the claim says can never start a chunk. -/
theorem chunk_can_start_within_first_five_lines :
    chunkSpans ["+import a", "y", "y", "y", "y", "y", "z"] = [(0, 5)] ∧
    fileSection ⟨"d.py", "Modified", false, "+import a\ny\ny\ny\ny\ny\nz"⟩ 1 =
      "\n### Modified: d.py\n+import a\ny\ny\ny\ny\n... (diff truncated) ...\n" ++
        "\nImportant changes:\n+import a\ny\ny\ny\ny\n---\n" := by
  refine ⟨by decide, by decide⟩

/-- C4 (amended): the scan for important lines covers all lines of the diff
in original order, including the first 5 already-emitted ones, so a chunk
may start anywhere in the diff; an important line is an added or removed
line, starting with '+' or '-' followed directly by a keyword of the fixed
recognition set (func, def, class, void, export, function, import, from,
require, use, using), and every emitted chunk starts at such a line. -/
theorem chunk_starts_at_keyword_line :
    ∀ (lines : List String) (s e : Nat), (s, e) ∈ chunkSpans lines →
      ∃ l, lines.get? s = some l ∧
        (funcKeywords ++ importKeywords).any
          (fun kw => strStarts l ("+" ++ kw) || strStarts l ("-" ++ kw)) = true := by
  intro lines s e h
  have hq := spansGo_start
      (fun s0 => ∃ l, lines.get? s0 = some l ∧ isImportantLine l = true) lines 0 none
      (by intro s0 hs0; cases hs0)
      (by intro k l hk hl; exact ⟨l, by simpa using hk, hl⟩) (s, e) h
  obtain ⟨l, h1, h2⟩ := hq
  refine ⟨l, h1, ?_⟩
  have hrw : isImportantLine l =
      (funcKeywords ++ importKeywords).any
        (fun kw => strStarts l ("+" ++ kw) || strStarts l ("-" ++ kw)) := by
    simp [isImportantLine, matchesKw, List.any_append]
  rw [← hrw]
  exact h2

/-- C4 witness: the theorem applied to the concrete span (0, 5) emitted on
the seven-line diff of the counterexample. -/
theorem chunk_starts_at_keyword_line_witness :
    ∃ l, (["+import a", "y", "y", "y", "y", "y", "z"] : List String).get? 0 = some l ∧
      (funcKeywords ++ importKeywords).any
        (fun kw => strStarts l ("+" ++ kw) || strStarts l ("-" ++ kw)) = true :=
  chunk_starts_at_keyword_line ["+import a", "y", "y", "y", "y", "y", "z"] 0 5 (by decide)

/-- C10 (confirmed): every chunk the loop emits was closed by an actual
non-important line present in the diff's line list, at an index more than 4
past the chunk's start; a chunk still open when the end of the line list is
reached has no such closing line and is discarded without being emitted.  In
the concrete list the trailing group of important lines produces no chunk
even though fewer than 3 chunks (none at all) were emitted. -/
theorem trailing_open_chunk_is_discarded :
    (∀ (lines : List String) (s e : Nat), (s, e) ∈ chunkSpans lines →
      ∃ l, lines.get? e = some l ∧ isImportantLine l = false ∧ s + 4 < e) ∧
    chunkSpans ["x", "x", "x", "x", "x", "+func f", "+func g"] = [] := by
  constructor
  · intro lines s e h
    have hgap : s + 4 < e := spansGo_gap lines 0 none (s, e) h
    obtain ⟨k, l, h1, h2, h3⟩ := spansGo_end lines 0 none (s, e) h
    have he : e = k := by simpa using h2
    refine ⟨l, ?_, h3, hgap⟩
    rw [he]
    exact h1
  · decide

/-- C10 witness: the general part of the theorem applied to the concrete
span (0, 5) emitted on a six-line diff. -/
theorem trailing_open_chunk_is_discarded_witness :
    ∃ l, (["+func f", "x", "x", "x", "x", "x"] : List String).get? 5 = some l ∧
      isImportantLine l = false ∧ 0 + 4 < 5 :=
  trailing_open_chunk_is_discarded.1 ["+func f", "x", "x", "x", "x", "x"] 0 5 (by decide)

/-- C6 counterexample: an over-budget diff of exactly 5 lines (34 bytes
against a character budget of 4) is emitted in full with no truncation
marker, because the Go truncation branch requires len(diffLines) > 5; the
claim instead says such a diff gets its 5 lines plus the marker. -/
theorem five_line_overbudget_diff_has_no_marker :
    fileSection ⟨"c.txt", "Modified", false, "111111\n222222\n333333\n444444\n555555"⟩ 1 =
      "\n### Modified: c.txt\n" ++ "111111\n222222\n333333\n444444\n555555" ∧
    strContains
      (fileSection ⟨"c.txt", "Modified", false, "111111\n222222\n333333\n444444\n555555"⟩ 1)
      "(diff truncated)" = false := by
  refine ⟨by decide, by decide⟩

/-- C6 (amended): for every over-budget, non-binary, non-deleted record with
nonempty diff, the section consists of the first 5 lines verbatim, the
truncation marker and the chunk block exactly when the diff has more than 5
lines; with 5 or fewer lines — in particular with exactly 5 — the whole diff
is emitted and no truncation marker is added. -/
theorem overbudget_section_shape (fc : FileChange) (t : Nat)
    (hb : fc.IsBinary = false) (hd : fc.ChangeType ≠ "Deleted") (hne : fc.Diff ≠ "")
    (hlen : t * 4 < goLen fc.Diff) :
    (5 < (splitChar '\n' fc.Diff).length →
      fileSection fc t = sectionHeaderOf fc ++
        (joinWith "\n" ((splitChar '\n' fc.Diff).take 5) ++ "\n... (diff truncated) ...\n" ++
          chunksBlock (splitChar '\n' fc.Diff))) ∧
    ((splitChar '\n' fc.Diff).length ≤ 5 → fileSection fc t = sectionHeaderOf fc ++ fc.Diff) := by
  constructor
  · intro h5
    simp [fileSection, hb, hd, hne, hlen, truncatedBody, h5]
  · intro h5
    simp [fileSection, hb, hd, hne, hlen, Nat.not_lt.mpr h5]

/-- C6 witness: the truncation branch of the theorem applied to a six-line
over-budget diff. -/
theorem overbudget_section_shape_witness :
    fileSection ⟨"b.go", "Added", false, "l1\nl2\nl3\nl4\nl5\nl6"⟩ 0 =
      sectionHeaderOf ⟨"b.go", "Added", false, "l1\nl2\nl3\nl4\nl5\nl6"⟩ ++
        (joinWith "\n" ((splitChar '\n' "l1\nl2\nl3\nl4\nl5\nl6").take 5) ++
          "\n... (diff truncated) ...\n" ++ chunksBlock (splitChar '\n' "l1\nl2\nl3\nl4\nl5\nl6")) :=
  (overbudget_section_shape ⟨"b.go", "Added", false, "l1\nl2\nl3\nl4\nl5\nl6"⟩ 0 rfl
    (by decide) (by decide) (by decide)).1 (by decide)

/-- C7 (confirmed): a non-binary, non-deleted record with nonempty diff whose
byte length is at most tokensPerFile * 4 has its entire diff reproduced
verbatim, byte for byte, as the body of its section of the digest. -/
theorem within_budget_diff_verbatim (fc : FileChange) (t : Nat)
    (hb : fc.IsBinary = false) (hd : fc.ChangeType ≠ "Deleted") (hne : fc.Diff ≠ "")
    (hlen : goLen fc.Diff ≤ t * 4) :
    fileSection fc t = sectionHeaderOf fc ++ fc.Diff := by
  simp [fileSection, hb, hd, hne, Nat.not_lt.mpr hlen]

/-- C7 witness: the theorem applied to a 5-byte diff against budget 40. -/
theorem within_budget_diff_verbatim_witness :
    fileSection ⟨"a.go", "Modified", false, "+x\n-y"⟩ 10 =
      sectionHeaderOf ⟨"a.go", "Modified", false, "+x\n-y"⟩ ++ "+x\n-y" :=
  within_budget_diff_verbatim ⟨"a.go", "Modified", false, "+x\n-y"⟩ 10 rfl (by decide)
    (by decide) (by decide)

/-- C8 (confirmed): a binary record yields exactly the one-line binary
marker naming the file and its change kind; a non-binary deleted record
yields exactly its section header plus the one-line "File was deleted."
marker; in both cases the section equals the section of the same record with
empty diffText, so the diff content is never inspected for chunk selection
and never appears in the digest, regardless of budget. -/
theorem binary_and_deleted_emit_marker_only (fc : FileChange) (t : Nat) :
    (fc.IsBinary = true →
      fileSection fc t = "\n### " ++ fc.ChangeType ++ ": " ++ fc.Path ++ " (binary file)\n") ∧
    (fc.IsBinary = false → fc.ChangeType = "Deleted" →
      fileSection fc t = sectionHeaderOf fc ++ "File was deleted.\n") ∧
    (fc.IsBinary = true ∨ fc.ChangeType = "Deleted" →
      fileSection fc t = fileSection { fc with Diff := "" } t) := by
  refine ⟨?_, ?_, ?_⟩
  · intro hb
    simp [fileSection, hb]
  · intro hb hd
    simp [fileSection, hb, hd]
  · intro h
    rcases h with hb | hd
    · simp [fileSection, hb]
    · by_cases hb : fc.IsBinary
      · simp [fileSection, hb]
      · simp [fileSection, hb, hd, sectionHeaderOf]

/-- C8 witness: the theorem applied to a concrete binary record and a
concrete deleted record, both with nonempty diffText. -/
theorem binary_and_deleted_emit_marker_only_witness :
    fileSection ⟨"img.png", "Added", true, "+x"⟩ 3 = "\n### Added: img.png (binary file)\n" ∧
    fileSection ⟨"old.go", "Deleted", false, "-y"⟩ 3 =
      sectionHeaderOf ⟨"old.go", "Deleted", false, "-y"⟩ ++ "File was deleted.\n" :=
  ⟨(binary_and_deleted_emit_marker_only ⟨"img.png", "Added", true, "+x"⟩ 3).1 rfl,
   (binary_and_deleted_emit_marker_only ⟨"old.go", "Deleted", false, "-y"⟩ 3).2.1 rfl rfl⟩

/-- C9 (confirmed): the allocation computes
tokensPerFile = floor(maxTokens * 0.8 / fileCount), with 0.8 = 4/5 and
truncating integer division; the result never exceeds maxTokens, and the
total per-file character budget tokensPerFile * 4 * fileCount never exceeds
0.8 * maxTokens * 4 plus slack bounded by fileCount. -/
theorem tokensPerFile_floor_and_bounds (t n : Nat) (ht : 0 < t) (hn : 0 < n) :
    tokensPerFile t n = Nat.floor ((4 : ℚ) / 5 * (t : ℚ) / (n : ℚ)) ∧
    tokensPerFile t n ≤ t ∧
    ((tokensPerFile t n * 4 * n : Nat) : ℚ) ≤ (4 : ℚ) / 5 * (t : ℚ) * 4 + (n : ℚ) := by
  refine ⟨?_, ?_, ?_⟩
  · have h1 : (4 : ℚ) / 5 * (t : ℚ) / (n : ℚ)
        = ((4 * t : ℕ) : ℚ) / ((5 : ℕ) : ℚ) / ((n : ℕ) : ℚ) := by
      push_cast
      ring
    rw [h1, Nat.floor_div_nat, Nat.floor_div_nat, Nat.floor_natCast]
    rfl
  · have h2 : tokensPerFile t n ≤ 4 * t / 5 := Nat.div_le_self _ _
    have h3 : 4 * t / 5 ≤ t := by omega
    omega
  · have h5 : tokensPerFile t n * n ≤ 4 * t / 5 := Nat.div_mul_le_self _ _
    have h6 : ((4 * t / 5 : ℕ) : ℚ) ≤ ((4 * t : ℕ) : ℚ) / ((5 : ℕ) : ℚ) := Nat.cast_div_le
    have h7 : (0 : ℚ) ≤ (n : ℚ) := by positivity
    have h8 : ((tokensPerFile t n * 4 * n : ℕ) : ℚ) ≤ ((4 * t / 5 : ℕ) : ℚ) * 4 := by
      have h9 : tokensPerFile t n * 4 * n ≤ 4 * t / 5 * 4 := by
        calc tokensPerFile t n * 4 * n = tokensPerFile t n * n * 4 := by ring
          _ ≤ 4 * t / 5 * 4 := Nat.mul_le_mul_right 4 h5
      exact_mod_cast h9
    have h10 : ((4 * t / 5 : ℕ) : ℚ) * 4 ≤ ((4 * t : ℕ) : ℚ) / ((5 : ℕ) : ℚ) * 4 := by
      linarith
    calc ((tokensPerFile t n * 4 * n : ℕ) : ℚ) ≤ ((4 * t / 5 : ℕ) : ℚ) * 4 := h8
      _ ≤ ((4 * t : ℕ) : ℚ) / ((5 : ℕ) : ℚ) * 4 := h10
      _ ≤ (4 : ℚ) / 5 * (t : ℚ) * 4 + (n : ℚ) := by
        push_cast
        linarith

/-- C9 witness: with total budget 40 and 10 files the per-file budget is 3,
and the theorem's bound applies at that input. -/
theorem tokensPerFile_floor_and_bounds_witness :
    tokensPerFile 40 10 = 3 ∧ tokensPerFile 40 10 ≤ 40 :=
  ⟨rfl, (tokensPerFile_floor_and_bounds 40 10 (by norm_num) (by norm_num)).2.1⟩

/-- C1 (code bug): the parser is claimed never to raise on malformed status
input, including a status line whose status-code field is empty (a line
beginning with a tab).  On the listing with second line consisting of a tab
then "b.txt", the Go code passes the two-field test, then evaluates
changeType[0] on the empty string and panics with an index-out-of-range
error (modelled as none); the same input with only the well-formed first
line parses normally. -/
theorem GetStagedDiffFiles_panics_on_empty_status_code :
    GetStagedDiffFiles "diff --git a/a.txt b/a.txt\n+x" "M\ta.txt\n\tb.txt" = none ∧
    GetStagedDiffFiles "diff --git a/a.txt b/a.txt\n+x" "M\ta.txt" =
      some [⟨"a.txt", "Modified", false, "diff --git a/a.txt b/a.txt\n+x"⟩] := by
  refine ⟨by decide, by decide⟩

/-- C2 (code bug): the digest is not independent of the iteration order of
the directory groups: on a change set with the two groups "a" and "b", the
two possible iteration orders — both permutations of the key set — produce
different bytes in the "Changes by directory" section.  The Go code ranges
over the dirGroups map, whose iteration order the language leaves unspecified
and the runtime randomizes per run, so two runs of PrepareSmartDiff on
identical inputs need not be byte-identical. -/
theorem PrepareSmartDiff_depends_on_group_order :
    dirKeys [⟨"a/x.go", "Modified", false, ""⟩, ⟨"b/y.go", "Modified", false, ""⟩] = ["a", "b"] ∧
    List.Perm ["b", "a"] ["a", "b"] ∧
    PrepareSmartDiff ["a", "b"]
        [⟨"a/x.go", "Modified", false, ""⟩, ⟨"b/y.go", "Modified", false, ""⟩] 100 ≠
      PrepareSmartDiff ["b", "a"]
        [⟨"a/x.go", "Modified", false, ""⟩, ⟨"b/y.go", "Modified", false, ""⟩] 100 := by
  refine ⟨by decide, by decide, by decide⟩

/-- C5 counterexample: invoked on an empty change set, PrepareSmartDiff
returns the empty string, which is not a digest containing a "0 files"
header. -/
theorem empty_changes_digest_lacks_header :
    PrepareSmartDiff [] [] 1000 = "" ∧
    strContains (PrepareSmartDiff [] [] 1000) "0 files" = false := by
  refine ⟨by decide, by decide⟩

/-- C5 (amended): invoked with an empty change set, PrepareSmartDiff returns
the empty string — a defined, non-fatal result with no header and no
per-file sections — for every budget and every group iteration order. -/
theorem empty_changes_digest_is_empty :
    ∀ (dirOrder : List String) (maxTokens : Nat), PrepareSmartDiff dirOrder [] maxTokens = "" := by
  intro dirOrder maxTokens
  simp [PrepareSmartDiff]
